import Mathlib

/-
Verification development for the tomviz pipeline coordinator
(src/tomviz/Pipeline.cxx).  The C++ class Pipeline is shallowly embedded as
pure Lean functions over an explicit arena-style state: DataSource objects,
Operator objects and PipelineWorker::Future objects live in association
lists keyed by numeric identities (standing for pointers).  Qt signal
emissions, worker dispatches and cancellation requests are recorded as an
explicit trace of actions, and QTimer::singleShot deferrals are recorded as
distinct deferred actions.
-/

namespace Tomviz

/-- Payload data object (vtkDataObject / vtkImageData): opaque value. -/
abbrev Data := Nat

/-- Identity of a DataSource object (stands for its pointer). -/
abbrev DsId := Nat

/-- Identity of an Operator object (stands for its pointer). -/
abbrev OpId := Nat

/-- Identity of a PipelineWorker::Future object (stands for its pointer). -/
abbrev FutId := Nat

/-- Association-list lookup by numeric key. -/
def lookupN {β : Type} : List (Nat × β) → Nat → Option β
  | [], _ => none
  | (k, v) :: rest, i => if i = k then some v else lookupN rest i

/-- Update every entry holding the given key by the given function. -/
def upd {β : Type} : List (Nat × β) → Nat → (β → β) → List (Nat × β)
  | [], _, _ => []
  | (k, v) :: rest, i, f => (if k = i then (k, f v) else (k, v)) :: upd rest i f

/-- State of one Operator relevant to Pipeline.cxx: its owning DataSource
(Operator::dataSource), the hasChildDataSource flag distinguishing explicit
child data sources, the childDataSource pointer, and whether the operator is
currently in the canceled state (Operator::isCanceled; Operator::resetState
clears it). -/
structure OperatorRec where
  owner : DsId
  hasChildDataSource : Bool
  childDataSource : Option DsId
  canceled : Bool
  deriving DecidableEq

/-- State of one DataSource relevant to Pipeline.cxx: its payload
(copyData / setData), its ordered operator list, whether setParent(this)
parented it under the pipeline, and whether deleteLater was called on it. -/
structure DataSourceRec where
  data : Data
  operators : List OpId
  parentIsPipeline : Bool
  deleted : Bool
  deriving DecidableEq

/-- State of one PipelineWorker::Future: the operator list being run, the
result payload, the running flag, and whether result()->Delete() or
deleteLater() were invoked on it. -/
structure FutureRec where
  ops : List OpId
  result : Data
  running : Bool
  resultDeleted : Bool
  deleted : Bool
  deriving DecidableEq

/-- Whole-pipeline state: the arenas plus the Pipeline member variables
m_future, m_paused and m_data, and fresh-identity counters for the objects
the code allocates with new. -/
structure PipelineState where
  dss : List (DsId × DataSourceRec)
  ops : List (OpId × OperatorRec)
  futs : List (FutId × FutureRec)
  mFuture : Option FutId
  mPaused : Bool
  mData : DsId
  nextDs : DsId
  nextFut : FutId
  deriving DecidableEq

/-- Dereference a DataSource identity. -/
def getDs (s : PipelineState) (i : DsId) : Option DataSourceRec :=
  lookupN s.dss i

/-- Dereference an Operator identity. -/
def getOp (s : PipelineState) (i : OpId) : Option OperatorRec :=
  lookupN s.ops i

/-- Dereference a Future identity. -/
def getFut (s : PipelineState) (i : FutId) : Option FutureRec :=
  lookupN s.futs i

/-- Stored payload of a DataSource. -/
def dsData (s : PipelineState) (i : DsId) : Option Data :=
  (getDs s i).map DataSourceRec.data

/-- DataSource::operators for the given node (empty for a dangling id). -/
def dsOperators (s : PipelineState) (i : DsId) : List OpId :=
  ((getDs s i).map DataSourceRec.operators).getD []

/-- DataSource::copyData: payloads are values, so a deep copy is the value. -/
def copyData (s : PipelineState) (i : DsId) : Data :=
  ((getDs s i).map DataSourceRec.data).getD 0

/-- Operator::childDataSource. -/
def childOf (s : PipelineState) (i : OpId) : Option DsId :=
  (getOp s i).bind OperatorRec.childDataSource

/-- Operator::isCanceled. -/
def opCanceled (s : PipelineState) (i : OpId) : Bool :=
  ((getOp s i).map OperatorRec.canceled).getD false

/-- PipelineWorker::Future::isRunning for a future identity. -/
def futRunning (s : PipelineState) (i : FutId) : Bool :=
  ((getFut s i).map FutureRec.running).getD false

/-- Pipeline::isRunning: m_future is non-null and still running. -/
def isRunning (s : PipelineState) : Bool :=
  match s.mFuture with
  | some f => futRunning s f
  | none => false

/-- DataSource::setData on the node with the given identity. -/
def setDsData (s : PipelineState) (i : DsId) (d : Data) : PipelineState :=
  { s with dss := upd s.dss i (fun r => { r with data := d }) }

/-- DataSource::removeAllOperators, modelled (the class is an external
collaborator) as detaching every step of the node. -/
def setDsOperators (s : PipelineState) (i : DsId) (l : List OpId) : PipelineState :=
  { s with dss := upd s.dss i (fun r => { r with operators := l }) }

/-- QObject::deleteLater on a DataSource: mark it discarded. -/
def markDsDeleted (s : PipelineState) (i : DsId) : PipelineState :=
  { s with dss := upd s.dss i (fun r => { r with deleted := true }) }

/-- Operator::setChildDataSource. -/
def setOpChild (s : PipelineState) (i : OpId) (c : Option DsId) : PipelineState :=
  { s with ops := upd s.ops i (fun r => { r with childDataSource := c }) }

/-- Operator::resetState: the operator leaves the canceled state. -/
def resetOpState (s : PipelineState) (i : OpId) : PipelineState :=
  { s with ops := upd s.ops i (fun r => { r with canceled := false }) }

/-- QObject::deleteLater on a Future. -/
def markFutDeleted (s : PipelineState) (i : FutId) : PipelineState :=
  { s with futs := upd s.futs i (fun r => { r with deleted := true }) }

/-- Future::result()->Delete(): the result payload is discarded. -/
def markResultDeleted (s : PipelineState) (i : FutId) : PipelineState :=
  { s with futs := upd s.futs i (fun r => { r with resultDeleted := true }) }

/-- Observable actions of the coordinator: signal emissions, worker
dispatches and cancellation requests, in program order.  The two deferred
constructors stand for QTimer::singleShot(0, ...) emissions, fired on the
next event-loop turn rather than synchronously. -/
inductive Action where
  | started : Action
  | finished : Action
  | cancelFuture : FutId → Action
  | cancelFromOp : FutId → OpId → Action
  | workerRun : FutId → Data → List OpId → Action
  | dataModified : DsId → Action
  | newChildDataSource : OpId → DsId → Action
  | dataSourceMoved : OpId → DsId → Action
  | deferredDataSourceMoved : OpId → DsId → Action
  | deferredImageFinished : Bool → Action
  deriving DecidableEq

/-- Predicate of Pipeline::findTransformedDataSourceOperator: an operator
that does not declare an explicit child but currently holds a child data
source, i.e. the holder of the implicit transformed payload. -/
def isTransformedHolder (s : PipelineState) (o : OpId) : Bool :=
  match getOp s o with
  | some r => !r.hasChildDataSource && r.childDataSource.isSome
  | none => false

/-- Pipeline::findTransformedDataSourceOperator: reverse scan of the node's
operator list for the implicit transformed-payload holder. -/
def findTransformedDataSourceOperator (s : PipelineState) (ds : DsId) : Option OpId :=
  (dsOperators s ds).reverse.find? (isTransformedHolder s)

/-- Pipeline::findTransformedDataSource: the holder's child data source. -/
def findTransformedDataSource (s : PipelineState) (ds : DsId) : Option DsId :=
  (findTransformedDataSourceOperator s ds).bind (childOf s)

/-- QList::indexOf semantics: index of the first occurrence, -1 if absent. -/
def qIndexOf (l : List OpId) (x : OpId) : Int :=
  match l with
  | [] => -1
  | a :: rest =>
    if a = x then 0
    else
      let r := qIndexOf rest x
      if r < 0 then -1 else r + 1

/-- The canceled-predecessor scan of Pipeline::executePipelineBranch lines
90-98: walk the operator list up to (but excluding) the resume operator; on
the first canceled operator, reset its state and stop with true. -/
def scanResetCanceled (s : PipelineState) (l : List OpId) (start : OpId) :
    PipelineState × Bool :=
  match l with
  | [] => (s, false)
  | o :: rest =>
    if o = start then (s, false)
    else if opCanceled s o then (resetOpState s o, true)
    else scanResetCanceled s rest start

/-- Lines 75-77 of executePipelineBranch: request cancellation of the
previously dispatched future when it is still running. -/
def cancelPriorTrace (s : PipelineState) : List Action :=
  match s.mFuture with
  | some f => if futRunning s f then [Action.cancelFuture f] else []
  | none => []

/-- PipelineWorker::run: allocate a fresh running Future over the given
operator list (the worker thread fills in the result later). -/
def runWorker (s : PipelineState) (runOps : List OpId) : PipelineState × FutId :=
  let f := s.nextFut
  ({ s with
      futs := s.futs ++ [(f, { ops := runOps, result := 0, running := true,
                               resultDeleted := false, deleted := false })],
      nextFut := f + 1 }, f)

/-- Pipeline::executePipelineBranch(dataSource, start).  Mirrors the source:
return if paused or the operator list is empty; cancel a running prior
future; when resuming after a start operator, copy the transformed child's
payload if one exists, scan for canceled predecessors (full re-run when one
is found), otherwise trim the operator list at the start operator and reset
its state; fall back to the node's own payload copy; dispatch the worker and
store the new future in m_future. -/
def executePipelineBranch (s : PipelineState) (dataSource : DsId) (start : Option OpId) :
    PipelineState × List Action :=
  if s.mPaused then (s, [])
  else
    let operators := dsOperators s dataSource
    if operators.isEmpty then (s, [])
    else
      let ct := cancelPriorTrace s
      let step3 : PipelineState × Option Data × List OpId :=
        match start with
        | none => (s, none, operators)
        | some st =>
          let data0 : Option Data :=
            match findTransformedDataSource s dataSource with
            | some tds => some (copyData s tds)
            | none => none
          let scan := scanResetCanceled s operators st
          if scan.2 then (scan.1, data0, operators)
          else (resetOpState scan.1 st, data0, operators.drop (qIndexOf operators st).toNat)
      let d : Data := step3.2.1.getD (copyData step3.1 dataSource)
      let rw := runWorker step3.1 step3.2.2
      ({ rw.1 with mFuture := some rw.2 }, ct ++ [Action.workerRun rw.2 d step3.2.2])

/-- Pipeline::execute(): emit started and run the root branch. -/
def executeAll (s : PipelineState) : PipelineState × List Action :=
  let p := executePipelineBranch s s.mData none
  (p.1, Action.started :: p.2)

/-- Pipeline::execute(DataSource* start): emit started and run the branch. -/
def executeOn (s : PipelineState) (start : DsId) : PipelineState × List Action :=
  let p := executePipelineBranch s start none
  (p.1, Action.started :: p.2)

/-- Pipeline::execute(DataSource* start, bool last) with last = true: emit
started and run the branch resuming at the node's last operator. -/
def executeOnLast (s : PipelineState) (start : DsId) : PipelineState × List Action :=
  let lastOp := (dsOperators s start).getLast?
  let p := executePipelineBranch s start lastOp
  (p.1, Action.started :: p.2)

/-- Pipeline::pause. -/
def pause (s : PipelineState) : PipelineState :=
  { s with mPaused := true }

/-- Pipeline::resume(bool run). -/
def resume (s : PipelineState) (run : Bool) : PipelineState × List Action :=
  let s1 := { s with mPaused := false }
  if run then executeAll s1 else (s1, [])

/-- Pipeline::cancel: request cancellation of m_future when present (the
callback wiring has no state effect in the model). -/
def cancelPipeline (s : PipelineState) : List Action :=
  match s.mFuture with
  | some f => [Action.cancelFuture f]
  | none => []

/-- Success block of Pipeline::pipelineBranchFinished, lines 131-146: when
the last operator run declares no explicit child data source, create the
implicit child the first time (new DataSource parented under the pipeline,
registered via addDataSource, attached to the operator), store the future's
result into the child, and emit newChildDataSource exactly when the child
was created in this call.  addDataSource only wires signal handlers, which
the model represents by the handler functions below. -/
def ensureAndStore (s : PipelineState) (resultData : Data) (lastOp : OpId)
    (lr : OperatorRec) : PipelineState × List Action :=
  match lr.hasChildDataSource, lr.childDataSource with
  | true, _ => (s, [])
  | false, none =>
    let nd := s.nextDs
    let sA := { s with
      dss := s.dss ++ [(nd, { data := 0, operators := [], parentIsPipeline := true,
                              deleted := false })],
      nextDs := nd + 1 }
    let sB := setOpChild sA lastOp (some nd)
    let c := (childOf sB lastOp).getD 0
    let sC := setDsData sB c resultData
    (sC, [Action.dataModified c, Action.newChildDataSource lastOp c])
  | false, some _ =>
    let c := (childOf s lastOp).getD 0
    let sC := setDsData s c resultData
    (sC, [Action.dataModified c])

/-- Pipeline::pipelineBranchFinished(result) with the sending future made
explicit.  On success: ensure-and-store the implicit child, then either
recurse into the child branch via execute(child) or emit finished, then
deleteLater the future and clear m_future if it is still this future.  On
failure: only delete the future's result. -/
def pipelineBranchFinished (s : PipelineState) (futId : FutId) (result : Bool) :
    PipelineState × List Action :=
  match getFut s futId with
  | none => (s, [])
  | some fut =>
    match result with
    | true =>
      match fut.ops.getLast? with
      | none => (s, [])
      | some lastOp =>
        match getOp s lastOp with
        | none => (s, [])
        | some lr =>
          let p1 := ensureAndStore s fut.result lastOp lr
          let p2 : PipelineState × List Action :=
            match childOf p1.1 lastOp with
            | some c =>
              let pb := executePipelineBranch p1.1 c none
              (pb.1, Action.started :: pb.2)
            | none => (p1.1, [Action.finished])
          let s3 := markFutDeleted p2.1 futId
          let s4 := if s3.mFuture = some futId then { s3 with mFuture := none } else s3
          (s4, p1.2 ++ p2.2)
    | false =>
      (markResultDeleted s futId, [])

/-- Pipeline::pipelineBranchCanceled with the sending future explicit:
delete the result, deleteLater the future, clear m_future if still this
future. -/
def pipelineBranchCanceled (s : PipelineState) (futId : FutId) : PipelineState :=
  let s1 := markFutDeleted (markResultDeleted s futId) futId
  if s1.mFuture = some futId then { s1 with mFuture := none } else s1

/-- Relocation block of the operatorRemoved handler, lines 265-280: when the
removed operator held an implicit (non-explicit) child, move that child to
the node's new last operator and emit dataSourceMoved synchronously, or, when
no operators remain, detach all of the orphan's operators and deleteLater
it.  The source's isEmpty test followed by operators.last() is rendered as
one match on getLast?, which is some exactly on a non-empty list. -/
def relocateOnRemove (s : PipelineState) (op : OpId) (opRec : OperatorRec) :
    PipelineState × List Action :=
  match opRec.hasChildDataSource, opRec.childDataSource with
  | false, some tds =>
    let operators := dsOperators s opRec.owner
    match operators.getLast? with
    | some newOp =>
      let s1 := setOpChild s op none
      let s2 := setOpChild s1 newOp (some tds)
      (s2, [Action.dataSourceMoved newOp tds])
    | none =>
      (markDsDeleted (setDsOperators s tds []) tds, [])
  | _, _ => (s, [])

/-- The handler Pipeline::addDataSource connects to
DataSource::operatorRemoved.  After the relocation block: when m_future is
running, attempt the step-scoped m_future->cancel(op); when that returns
false, re-run the node's branch via execute(op->dataSource()); when nothing
is running, re-run the branch.  The Boolean returned by the worker's
step-scoped cancel is internal to PipelineWorker and is supplied here as the
oracle argument cancelOk. -/
def operatorRemovedHandlers (s : PipelineState) (op : OpId) (cancelOk : Bool) :
    PipelineState × List Action :=
  match getOp s op with
  | none => (s, [])
  | some opRec =>
    let p1 := relocateOnRemove s op opRec
    match p1.1.mFuture with
    | some f =>
      if futRunning p1.1 f then
        if cancelOk then (p1.1, p1.2 ++ [Action.cancelFromOp f op])
        else
          let p2 := executeOn p1.1 opRec.owner
          (p2.1, p1.2 ++ Action.cancelFromOp f op :: p2.2)
      else
        let p2 := executeOn p1.1 opRec.owner
        (p2.1, p1.2 ++ p2.2)
    | none =>
      let p2 := executeOn p1.1 opRec.owner
      (p2.1, p1.2 ++ p2.2)

/-- Pipeline::ImageFuture: the wrapped operator, the image payload, and the
wrapped worker future when one was dispatched.  The constructor connects the
wrapped future's finished and canceled signals to the ImageFuture's own,
which the model represents by the future field itself. -/
structure ImageFutureRec where
  op : OpId
  imageData : Data
  future : Option FutId
  deriving DecidableEq

/-- Pipeline::getCopyOfImagePriorTo(op): copy the ROOT node's payload; when
the root has more than one operator and op sits at a strictly positive index
of the root's operator list, dispatch a worker run over the operators before
that index and wrap the resulting future; otherwise resolve immediately,
deferring the finished(true) emission to the next event-loop turn. -/
def getCopyOfImagePriorTo (s : PipelineState) (op : OpId) :
    PipelineState × ImageFutureRec × List Action :=
  let dataSource := s.mData
  let result := copyData s dataSource
  let operators := dsOperators s dataSource
  if 1 < operators.length then
    let index := qIndexOf operators op
    if 0 < index then
      let rw := runWorker s (operators.take index.toNat)
      (rw.1, { op := op, imageData := result, future := some rw.2 },
        [Action.workerRun rw.2 result (operators.take index.toNat)])
    else
      (s, { op := op, imageData := result, future := none },
        [Action.deferredImageFinished true])
  else
    (s, { op := op, imageData := result, future := none },
      [Action.deferredImageFinished true])

/-- A plain pipeline operator record owned by the given node. -/
def plainOp (ds : DsId) : OperatorRec :=
  { owner := ds, hasChildDataSource := false, childDataSource := none, canceled := false }

/-- Test state: root node 0 (payload 10, operators 1 and 2) with a prior
future 0 still running. -/
def sC2 : PipelineState :=
  { dss := [(0, { data := 10, operators := [1, 2], parentIsPipeline := false,
                  deleted := false })],
    ops := [(1, plainOp 0), (2, plainOp 0)],
    futs := [(0, { ops := [1, 2], result := 0, running := true,
                   resultDeleted := false, deleted := false })],
    mFuture := some 0, mPaused := false, mData := 0, nextDs := 1, nextFut := 1 }

/-- Test state: root node 0 (payload 10, operators 1 and 2); operator 1 is
canceled; operator 2 holds the implicit transformed child node 1 whose
cached payload is 99. -/
def sC3 : PipelineState :=
  { dss := [(0, { data := 10, operators := [1, 2], parentIsPipeline := false,
                  deleted := false }),
            (1, { data := 99, operators := [], parentIsPipeline := true,
                  deleted := false })],
    ops := [(1, { owner := 0, hasChildDataSource := false, childDataSource := none,
                  canceled := true }),
            (2, { owner := 0, hasChildDataSource := false, childDataSource := some 1,
                  canceled := false })],
    futs := [], mFuture := none, mPaused := false, mData := 0, nextDs := 2, nextFut := 0 }

/-- Test state: a dispatched future 0 (result payload 5) registered as the
active handle m_future. -/
def sC4 : PipelineState :=
  { dss := [(0, { data := 10, operators := [1], parentIsPipeline := false,
                  deleted := false })],
    ops := [(1, plainOp 0)],
    futs := [(0, { ops := [1], result := 5, running := true,
                   resultDeleted := false, deleted := false })],
    mFuture := some 0, mPaused := false, mData := 0, nextDs := 1, nextFut := 1 }

/-- Test state: a paused pipeline whose root node 0 has one operator. -/
def sC5 : PipelineState :=
  { dss := [(0, { data := 10, operators := [1], parentIsPipeline := false,
                  deleted := false })],
    ops := [(1, plainOp 0)],
    futs := [], mFuture := none, mPaused := true, mData := 0, nextDs := 1, nextFut := 0 }

/-- Test state: future 0 finished successfully with result 42 over operator
1, which has no child data source yet. -/
def sC1 : PipelineState :=
  { dss := [(0, { data := 10, operators := [1], parentIsPipeline := false,
                  deleted := false })],
    ops := [(1, plainOp 0)],
    futs := [(0, { ops := [1], result := 42, running := false,
                   resultDeleted := false, deleted := false })],
    mFuture := some 0, mPaused := false, mData := 0, nextDs := 1, nextFut := 1 }

/-- Test state: operator 1 (holding implicit child node 1) was just removed
from node 0, leaving operator 2 as the node's only operator. -/
def sC7 : PipelineState :=
  { dss := [(0, { data := 10, operators := [2], parentIsPipeline := false,
                  deleted := false }),
            (1, { data := 50, operators := [], parentIsPipeline := true,
                  deleted := false })],
    ops := [(1, { owner := 0, hasChildDataSource := false, childDataSource := some 1,
                  canceled := false }),
            (2, plainOp 0)],
    futs := [], mFuture := none, mPaused := false, mData := 0, nextDs := 2, nextFut := 0 }

/-- Test state: root node 0 (payload 10, operators 1 and 2) and a second
node 1 (payload 20) owning operator 5, which is not among the root's
operators. -/
def sC8 : PipelineState :=
  { dss := [(0, { data := 10, operators := [1, 2], parentIsPipeline := false,
                  deleted := false }),
            (1, { data := 20, operators := [5], parentIsPipeline := false,
                  deleted := false })],
    ops := [(1, plainOp 0), (2, plainOp 0), (5, plainOp 1)],
    futs := [], mFuture := none, mPaused := false, mData := 0, nextDs := 2, nextFut := 0 }

/-- Future record used by the success-completion test state sC1. -/
def futC1 : FutureRec :=
  { ops := [1], result := 42, running := false, resultDeleted := false, deleted := false }

theorem lookupN_upd {β : Type} (l : List (Nat × β)) (i j : Nat) (f : β → β) :
    lookupN (upd l i f) j = if j = i then (lookupN l j).map f else lookupN l j := by
  induction l with
  | nil => simp [lookupN, upd]
  | cons hd tl ih =>
    obtain ⟨k, v⟩ := hd
    simp only [upd]
    by_cases hk : k = i
    · subst hk
      rw [if_pos rfl]
      by_cases hj : j = k
      · subst hj
        simp [lookupN]
      · simp [lookupN, hj, ih]
    · rw [if_neg hk]
      by_cases hj : j = k
      · subst hj
        simp [lookupN, hk]
      · simp [lookupN, hj, ih]

theorem lookupN_upd_ne {β : Type} (l : List (Nat × β)) (i j : Nat) (f : β → β)
    (h : j ≠ i) : lookupN (upd l i f) j = lookupN l j := by
  rw [lookupN_upd, if_neg h]

theorem lookupN_append_fresh {β : Type} (l : List (Nat × β)) (i : Nat) (r : β)
    (h : lookupN l i = none) : lookupN (l ++ [(i, r)]) i = some r := by
  induction l with
  | nil => simp [lookupN]
  | cons hd tl ih =>
    obtain ⟨k, v⟩ := hd
    by_cases hj : i = k
    · simp [lookupN, hj] at h
    · simp [lookupN, hj] at h ⊢
      exact ih h

theorem getOp_setOpChild (s : PipelineState) (i j : OpId) (c : Option DsId) :
    getOp (setOpChild s i c) j =
      if j = i then (getOp s j).map (fun r => { r with childDataSource := c })
      else getOp s j := by
  simp [getOp, setOpChild, lookupN_upd]

theorem childOf_setOpChild_self (s : PipelineState) (i : OpId) (c : Option DsId)
    (h : (getOp s i).isSome = true) : childOf (setOpChild s i c) i = c := by
  unfold childOf
  rw [getOp_setOpChild]
  simp only [if_pos rfl]
  cases hg : getOp s i with
  | none => rw [hg] at h; cases h
  | some r => simp

theorem childOf_setOpChild_other (s : PipelineState) (i j : OpId) (c : Option DsId)
    (h : j ≠ i) : childOf (setOpChild s i c) j = childOf s j := by
  unfold childOf
  rw [getOp_setOpChild, if_neg h]

theorem getOp_resetOpState (s : PipelineState) (i j : OpId) :
    getOp (resetOpState s i) j =
      if j = i then (getOp s j).map (fun r => { r with canceled := false })
      else getOp s j := by
  simp [getOp, resetOpState, lookupN_upd]

theorem opCanceled_resetOpState_self (s : PipelineState) (c : OpId) :
    opCanceled (resetOpState s c) c = false := by
  unfold opCanceled
  rw [getOp_resetOpState, if_pos rfl]
  cases getOp s c <;> rfl

theorem scanResetCanceled_state (s : PipelineState) (l : List OpId) (st : OpId) :
    ∃ o, (scanResetCanceled s l st).1 = { s with ops := o } := by
  induction l with
  | nil => exact ⟨s.ops, rfl⟩
  | cons a rest ih =>
    by_cases h1 : a = st
    · exact ⟨s.ops, by simp [scanResetCanceled, h1]⟩
    · by_cases h2 : opCanceled s a
      · exact ⟨upd s.ops a (fun r => { r with canceled := false }),
          by simp [scanResetCanceled, h1, h2, resetOpState]⟩
      · simpa [scanResetCanceled, h1, h2] using ih

theorem scanResetCanceled_found (s : PipelineState) (l : List OpId) (st : OpId)
    (h : (scanResetCanceled s l st).2 = true) :
    ∃ c, c ∈ l ∧ opCanceled s c = true ∧
      (scanResetCanceled s l st).1 = resetOpState s c := by
  induction l with
  | nil => simp [scanResetCanceled] at h
  | cons a rest ih =>
    by_cases h1 : a = st
    · simp [scanResetCanceled, h1] at h
    · by_cases h2 : opCanceled s a
      · exact ⟨a, List.mem_cons_self a rest, h2, by simp [scanResetCanceled, h1, h2]⟩
      · obtain ⟨c, hc1, hc2, hc3⟩ := ih (by simpa [scanResetCanceled, h1, h2] using h)
        exact ⟨c, List.mem_cons_of_mem a hc1, hc2,
          by simpa [scanResetCanceled, h1, h2] using hc3⟩

theorem qIndexOf_get (l : List OpId) (x : OpId) (h : 0 ≤ qIndexOf l x) :
    l.get? (qIndexOf l x).toNat = some x := by
  induction l with
  | nil => simp [qIndexOf] at h
  | cons a rest ih =>
    by_cases ha : a = x
    · simp [qIndexOf, ha]
    · by_cases hr : qIndexOf rest x < 0
      · simp [qIndexOf, ha, hr] at h
      · have h0 : 0 ≤ qIndexOf rest x := Int.not_lt.mp hr
        have he : qIndexOf (a :: rest) x = qIndexOf rest x + 1 := by
          simp [qIndexOf, ha, hr]
        rw [he]
        have hn : (qIndexOf rest x + 1).toNat = (qIndexOf rest x).toNat + 1 := by omega
        rw [hn]
        simpa using ih h0

/-- C9: previewBefore never modifies any real data node's stored payload:
getCopyOfImagePriorTo leaves the entire data-source arena unchanged (it
only ever works on the copied payload and never invokes setData). -/
theorem getCopyOfImagePriorTo_preserves_payloads (s : PipelineState) (op : OpId) :
    ((getCopyOfImagePriorTo s op).1).dss = s.dss ∧
    (∀ i, dsData (getCopyOfImagePriorTo s op).1 i = dsData s i) := by
  have h : ((getCopyOfImagePriorTo s op).1).dss = s.dss := by
    unfold getCopyOfImagePriorTo runWorker
    dsimp only
    split
    · split <;> rfl
    · rfl
  refine ⟨h, fun i => ?_⟩
  unfold dsData getDs
  rw [h]

/-- C10: previewBefore computes from the ROOT node's payload and operator
list regardless of which node owns the given operator: whenever the
operator is not at a strictly positive index of the root's operator list,
or the root has at most one operator, the state is untouched, no worker run
is dispatched, and the handle resolves on the next event-loop turn with an
unmodified copy of the root payload. -/
theorem getCopyOfImagePriorTo_root_based (s : PipelineState) (op : OpId)
    (h : qIndexOf (dsOperators s s.mData) op ≤ 0 ∨ (dsOperators s s.mData).length ≤ 1) :
    getCopyOfImagePriorTo s op =
      (s, { op := op, imageData := copyData s s.mData, future := none },
        [Action.deferredImageFinished true]) := by
  unfold getCopyOfImagePriorTo
  dsimp only
  rcases h with h | h
  · by_cases h2 : 1 < (dsOperators s s.mData).length
    · rw [if_pos h2, if_neg (Int.not_lt.mpr h)]
    · rw [if_neg h2]
  · have h2 : ¬ 1 < (dsOperators s s.mData).length := by omega
    rw [if_neg h2]

theorem getCopyOfImagePriorTo_root_based_witness :
    (qIndexOf (dsOperators sC8 sC8.mData) 5 ≤ 0 ∨
      (dsOperators sC8 sC8.mData).length ≤ 1) ∧
    getCopyOfImagePriorTo sC8 5 =
      (sC8, { op := 5, imageData := copyData sC8 sC8.mData, future := none },
        [Action.deferredImageFinished true]) :=
  ⟨Or.inl (by decide), getCopyOfImagePriorTo_root_based sC8 5 (Or.inl (by decide))⟩

/-- C8 counterexample: operator 5 is the FIRST operator of its own node 1,
whose original payload is 20; the claim says the preview then resolves with
a copy of that node's payload, but the code resolves with a copy of the
ROOT node's payload 10. -/
theorem previewBefore_ignores_owning_node_cex :
    (getOp sC8 5).map OperatorRec.owner = some 1 ∧
    (dsOperators sC8 1).head? = some 5 ∧
    dsData sC8 1 = some 20 ∧
    (getCopyOfImagePriorTo sC8 5).2.1.imageData = 10 ∧
    (10 : Data) ≠ 20 := by decide

/-- C8 (amended): previewBefore(op) always reads the ROOT node.  When the
root has more than one operator and op sits at a strictly positive index of
the root's operator list, a worker run is dispatched over exactly the root
operators strictly preceding op, starting from a copy of the root's
payload, and the Preview Handle wraps that dispatched future (forwarding
its terminal events); in every other case no worker run is dispatched and
the handle resolves on the next event-loop turn with a copy of the root's
payload. -/
theorem getCopyOfImagePriorTo_spec (s : PipelineState) (op : OpId) :
    (1 < (dsOperators s s.mData).length → 0 < qIndexOf (dsOperators s s.mData) op →
      getCopyOfImagePriorTo s op =
        ((runWorker s
            ((dsOperators s s.mData).take (qIndexOf (dsOperators s s.mData) op).toNat)).1,
         { op := op, imageData := copyData s s.mData, future := some s.nextFut },
         [Action.workerRun s.nextFut (copyData s s.mData)
            ((dsOperators s s.mData).take (qIndexOf (dsOperators s s.mData) op).toNat)]) ∧
      (dsOperators s s.mData).get? (qIndexOf (dsOperators s s.mData) op).toNat = some op) ∧
    (¬ (1 < (dsOperators s s.mData).length ∧ 0 < qIndexOf (dsOperators s s.mData) op) →
      getCopyOfImagePriorTo s op =
        (s, { op := op, imageData := copyData s s.mData, future := none },
         [Action.deferredImageFinished true])) := by
  constructor
  · intro h1 h2
    refine ⟨?_, qIndexOf_get _ _ (le_of_lt h2)⟩
    unfold getCopyOfImagePriorTo
    dsimp only
    rw [if_pos h1, if_pos h2]
    rfl
  · intro h
    by_cases h1 : 1 < (dsOperators s s.mData).length
    · have h2 : ¬ 0 < qIndexOf (dsOperators s s.mData) op := fun h2 => h ⟨h1, h2⟩
      unfold getCopyOfImagePriorTo
      dsimp only
      rw [if_pos h1, if_neg h2]
    · unfold getCopyOfImagePriorTo
      dsimp only
      rw [if_neg h1]

theorem getCopyOfImagePriorTo_spec_witness :
    (getCopyOfImagePriorTo sC8 2 =
      ((runWorker sC8
          ((dsOperators sC8 sC8.mData).take (qIndexOf (dsOperators sC8 sC8.mData) 2).toNat)).1,
       { op := 2, imageData := copyData sC8 sC8.mData, future := some sC8.nextFut },
       [Action.workerRun sC8.nextFut (copyData sC8 sC8.mData)
          ((dsOperators sC8 sC8.mData).take (qIndexOf (dsOperators sC8 sC8.mData) 2).toNat)]) ∧
     (dsOperators sC8 sC8.mData).get? (qIndexOf (dsOperators sC8 sC8.mData) 2).toNat = some 2) ∧
    getCopyOfImagePriorTo sC8 5 =
      (sC8, { op := 5, imageData := copyData sC8 sC8.mData, future := none },
       [Action.deferredImageFinished true]) :=
  ⟨(getCopyOfImagePriorTo_spec sC8 2).1 (by decide) (by decide),
   (getCopyOfImagePriorTo_spec sC8 5).2 (by decide)⟩

/-- C4 counterexample: future 0 completes unsuccessfully while registered as
the active handle; afterwards m_future still holds future 0, so the
active-handle reference is NOT cleared as the claim states. -/
theorem failure_keeps_active_handle_cex :
    sC4.mFuture = some 0 ∧
    ((pipelineBranchFinished sC4 0 false).1).mFuture = some 0 := by decide

/-- C4 (amended): on unsuccessful completion the coordinator deletes the
handle's result payload and does nothing else: no notification is emitted,
no data source or operator changes (so no child is created or stored into),
no child branch is dispatched — but, unlike the claim, the active-handle
reference m_future is left as it was rather than cleared. -/
theorem pipelineBranchFinished_failure_spec (s : PipelineState) (f : FutId)
    (fr : FutureRec) (hf : getFut s f = some fr) :
    (pipelineBranchFinished s f false).2 = [] ∧
    ((pipelineBranchFinished s f false).1).dss = s.dss ∧
    ((pipelineBranchFinished s f false).1).ops = s.ops ∧
    ((pipelineBranchFinished s f false).1).mFuture = s.mFuture ∧
    (getFut (pipelineBranchFinished s f false).1 f).map FutureRec.resultDeleted =
      some true := by
  unfold pipelineBranchFinished
  rw [hf]
  refine ⟨rfl, rfl, rfl, rfl, ?_⟩
  show (getFut (markResultDeleted s f) f).map FutureRec.resultDeleted = some true
  unfold markResultDeleted getFut
  dsimp only
  rw [lookupN_upd, if_pos rfl,
    show lookupN s.futs f = some fr from hf]
  rfl

theorem pipelineBranchFinished_failure_spec_witness :
    getFut sC4 0 = some { ops := [1], result := 5, running := true,
                          resultDeleted := false, deleted := false } ∧
    ((pipelineBranchFinished sC4 0 false).2 = [] ∧
     ((pipelineBranchFinished sC4 0 false).1).dss = sC4.dss ∧
     ((pipelineBranchFinished sC4 0 false).1).ops = sC4.ops ∧
     ((pipelineBranchFinished sC4 0 false).1).mFuture = sC4.mFuture ∧
     (getFut (pipelineBranchFinished sC4 0 false).1 0).map FutureRec.resultDeleted =
       some true) :=
  ⟨by decide, pipelineBranchFinished_failure_spec sC4 0
    { ops := [1], result := 5, running := true, resultDeleted := false, deleted := false }
    (by decide)⟩

/-- C5 counterexample: sC5 is paused, yet the public execute(DataSource*)
entry point still emits the started notification, contradicting the claim
that no notifications (including started) are emitted. -/
theorem paused_execute_emits_started_cex :
    sC5.mPaused = true ∧
    executeOn sC5 0 = (sC5, [Action.started]) ∧
    (executeOn sC5 0).2 ≠ [] := by decide

/-- C5 (amended): when the pipeline is paused or the target branch's
operator list is empty, executePipelineBranch is a strict no-op (state
unchanged, no worker run, no notification), and the public execute entry
points leave the state unchanged and emit nothing beyond their
unconditional started signal, which fires even in this case. -/
theorem execute_noop_spec (s : PipelineState) (ds : DsId) (st : Option OpId)
    (h : s.mPaused = true ∨ dsOperators s ds = []) :
    executePipelineBranch s ds st = (s, []) ∧
    executeOn s ds = (s, [Action.started]) ∧
    executeOnLast s ds = (s, [Action.started]) := by
  have hb : ∀ st2, executePipelineBranch s ds st2 = (s, []) := by
    intro st2
    unfold executePipelineBranch
    rcases h with h | h
    · rw [if_pos h]
    · by_cases hp : s.mPaused
      · rw [if_pos hp]
      · rw [if_neg hp]
        dsimp only
        rw [if_pos (by rw [h]; rfl)]
  exact ⟨hb st, by simp only [executeOn, hb], by simp only [executeOnLast, hb]⟩

theorem execute_noop_spec_witness :
    (sC5.mPaused = true ∨ dsOperators sC5 0 = []) ∧
    (executePipelineBranch sC5 0 none = (sC5, []) ∧
     executeOn sC5 0 = (sC5, [Action.started]) ∧
     executeOnLast sC5 0 = (sC5, [Action.started])) :=
  ⟨Or.inl rfl, execute_noop_spec sC5 0 none (Or.inl rfl)⟩

theorem executePipelineBranch_trace (s : PipelineState) (ds : DsId) (st : Option OpId)
    (hp : s.mPaused = false) (hne : (dsOperators s ds).isEmpty = false) :
    ∃ d runOps, (executePipelineBranch s ds st).2 =
      cancelPriorTrace s ++ [Action.workerRun s.nextFut d runOps] := by
  unfold executePipelineBranch
  rw [if_neg (by simp [hp]), if_neg (by simp [hne])]
  dsimp only
  cases st with
  | none => exact ⟨_, _, rfl⟩
  | some st0 =>
    dsimp only
    obtain ⟨o, ho⟩ := scanResetCanceled_state s (dsOperators s ds) st0
    by_cases hs : (scanResetCanceled s (dsOperators s ds) st0).2 = true
    · rw [if_pos hs, ho]
      exact ⟨_, _, rfl⟩
    · rw [if_neg hs, ho]
      exact ⟨_, _, rfl⟩

/-- C2: whenever executePipelineBranch actually dispatches a new branch run
while the previously dispatched handle is still running, the cancellation
request for the prior handle strictly precedes obtaining the new handle
from the worker. -/
theorem executePipelineBranch_cancels_prior (s : PipelineState) (ds : DsId)
    (st : Option OpId) (f : FutId)
    (hp : s.mPaused = false)
    (hne : (dsOperators s ds).isEmpty = false)
    (hf : s.mFuture = some f)
    (hr : futRunning s f = true) :
    ∃ d runOps,
      (executePipelineBranch s ds st).2 =
        [Action.cancelFuture f, Action.workerRun s.nextFut d runOps] := by
  obtain ⟨d, runOps, h⟩ := executePipelineBranch_trace s ds st hp hne
  refine ⟨d, runOps, ?_⟩
  rw [h]
  unfold cancelPriorTrace
  rw [hf]
  dsimp only
  rw [hr]
  rfl

theorem executePipelineBranch_cancels_prior_witness :
    (sC2.mPaused = false ∧ (dsOperators sC2 0).isEmpty = false ∧
     sC2.mFuture = some 0 ∧ futRunning sC2 0 = true) ∧
    ∃ d runOps, (executePipelineBranch sC2 0 none).2 =
      [Action.cancelFuture 0, Action.workerRun sC2.nextFut d runOps] :=
  ⟨⟨rfl, by decide, rfl, by decide⟩,
   executePipelineBranch_cancels_prior sC2 0 none 0 rfl (by decide) rfl (by decide)⟩

/-- C3 counterexample: in sC3 the resume point is operator 2, operator 1 is
a canceled predecessor, and the implicit transformed child caches payload
99; the dispatched full re-run starts from the cached payload 99 even
though the node's original payload is 10, contradicting the claim that the
re-run starts from the node's original payload and not from a cached
intermediate snapshot. -/
theorem canceled_predecessor_uses_cached_payload_cex :
    (scanResetCanceled sC3 (dsOperators sC3 0) 2).2 = true ∧
    (executePipelineBranch sC3 0 (some 2)).2 = [Action.workerRun 0 99 [1, 2]] ∧
    dsData sC3 0 = some 10 ∧ (99 : Data) ≠ 10 := by decide

/-- C3 (amended): when executePipelineBranch resumes after a start operator
and some operator strictly before the resume point is canceled, the first
such operator's state is reset and the branch's ENTIRE operator list is
dispatched again; the starting payload of that re-run is the cached
transformed child's payload whenever the implicit transformed child exists,
and the node's original payload only otherwise. -/
theorem executePipelineBranch_canceled_predecessor (s : PipelineState) (ds : DsId)
    (st : OpId)
    (hp : s.mPaused = false)
    (hne : (dsOperators s ds).isEmpty = false)
    (hscan : (scanResetCanceled s (dsOperators s ds) st).2 = true) :
    ∃ c, c ∈ dsOperators s ds ∧ opCanceled s c = true ∧
      opCanceled (executePipelineBranch s ds (some st)).1 c = false ∧
      (executePipelineBranch s ds (some st)).2 =
        cancelPriorTrace s ++
          [Action.workerRun s.nextFut
            (match findTransformedDataSource s ds with
             | some tds => copyData s tds
             | none => copyData s ds)
            (dsOperators s ds)] := by
  obtain ⟨c, hc1, hc2, hc3⟩ := scanResetCanceled_found s (dsOperators s ds) st hscan
  refine ⟨c, hc1, hc2, ?_, ?_⟩
  · unfold executePipelineBranch
    rw [if_neg (by simp [hp]), if_neg (by simp [hne])]
    dsimp only
    rw [if_pos hscan, hc3]
    exact opCanceled_resetOpState_self s c
  · unfold executePipelineBranch
    rw [if_neg (by simp [hp]), if_neg (by simp [hne])]
    dsimp only
    rw [if_pos hscan, hc3]
    cases hft : findTransformedDataSource s ds with
    | some tds => rfl
    | none => rfl

theorem executePipelineBranch_canceled_predecessor_witness :
    (sC3.mPaused = false ∧ (dsOperators sC3 0).isEmpty = false ∧
     (scanResetCanceled sC3 (dsOperators sC3 0) 2).2 = true) ∧
    ∃ c, c ∈ dsOperators sC3 0 ∧ opCanceled sC3 c = true ∧
      opCanceled (executePipelineBranch sC3 0 (some 2)).1 c = false ∧
      (executePipelineBranch sC3 0 (some 2)).2 =
        cancelPriorTrace sC3 ++
          [Action.workerRun sC3.nextFut
            (match findTransformedDataSource sC3 0 with
             | some tds => copyData sC3 tds
             | none => copyData sC3 0)
            (dsOperators sC3 0)] :=
  ⟨⟨rfl, by decide, by decide⟩,
   executePipelineBranch_canceled_predecessor sC3 0 2 rfl (by decide) (by decide)⟩

/-- C1: on successful completion of an execution handle the coordinator,
when the last operator run declares no explicit child, ensures the implicit
child data source (a fresh node parented under the pipeline is created
exactly on the first completion, and the newChildDataSource notification is
emitted exactly then) and stores the handle's result payload into it; then
it recursively invokes branch execution on the operator's child when any
child (explicit or implicit) exists, and emits the overall finished
notification otherwise. -/
theorem pipelineBranchFinished_success_spec
    (s : PipelineState) (f : FutId) (fut : FutureRec) (lastOp : OpId) (lr : OperatorRec)
    (hf : getFut s f = some fut)
    (hl : fut.ops.getLast? = some lastOp)
    (ho : getOp s lastOp = some lr)
    (hfresh : getDs s s.nextDs = none)
    (hwf : ∀ c, lr.childDataSource = some c → (getDs s c).isSome = true) :
    ∃ s1 tr1,
      ensureAndStore s fut.result lastOp lr = (s1, tr1) ∧
      (lr.hasChildDataSource = false →
        ∃ c, childOf s1 lastOp = some c ∧ dsData s1 c = some fut.result ∧
          ((lr.childDataSource = none ∧ getDs s c = none ∧
              (getDs s1 c).map DataSourceRec.parentIsPipeline = some true ∧
              tr1 = [Action.dataModified c, Action.newChildDataSource lastOp c]) ∨
           (lr.childDataSource = some c ∧ tr1 = [Action.dataModified c]))) ∧
      (lr.hasChildDataSource = true → s1 = s ∧ tr1 = []) ∧
      (pipelineBranchFinished s f true).2 =
        tr1 ++ (match childOf s1 lastOp with
                | some c => Action.started :: (executePipelineBranch s1 c none).2
                | none => [Action.finished]) := by
  have ho' : lookupN s.ops lastOp = some lr := ho
  have hfresh' : lookupN s.dss s.nextDs = none := hfresh
  refine ⟨(ensureAndStore s fut.result lastOp lr).1,
    (ensureAndStore s fut.result lastOp lr).2, rfl, ?_, ?_, ?_⟩
  · intro hnc
    obtain ⟨ow, hcds, cds, cn⟩ := lr
    simp only at hnc
    subst hnc
    cases cds with
    | none =>
      have hch : childOf
          (setOpChild
            { s with
              dss := s.dss ++ [(s.nextDs,
                { data := 0, operators := [], parentIsPipeline := true, deleted := false })],
              nextDs := s.nextDs + 1 }
            lastOp (some s.nextDs)) lastOp = some s.nextDs := by
        unfold childOf
        rw [getOp_setOpChild, if_pos rfl]
        rw [show getOp { s with
              dss := s.dss ++ [(s.nextDs,
                { data := 0, operators := [], parentIsPipeline := true, deleted := false })],
              nextDs := s.nextDs + 1 } lastOp =
            some { owner := ow, hasChildDataSource := false, childDataSource := none,
                   canceled := cn } from ho']
        rfl
      refine ⟨s.nextDs, ?_, ?_, Or.inl ⟨rfl, hfresh, ?_, ?_⟩⟩
      · show childOf (ensureAndStore s fut.result lastOp
          { owner := ow, hasChildDataSource := false, childDataSource := none,
            canceled := cn }).1 lastOp = some s.nextDs
        simp only [ensureAndStore]
        rw [hch]
        exact hch
      · show dsData (ensureAndStore s fut.result lastOp
          { owner := ow, hasChildDataSource := false, childDataSource := none,
            canceled := cn }).1 s.nextDs = some fut.result
        simp only [ensureAndStore]
        rw [hch]
        show (lookupN (upd
          (s.dss ++ [(s.nextDs,
            { data := 0, operators := [], parentIsPipeline := true, deleted := false })])
          s.nextDs (fun r => { r with data := fut.result })) s.nextDs).map
            DataSourceRec.data = some fut.result
        rw [lookupN_upd, if_pos rfl, lookupN_append_fresh s.dss s.nextDs _ hfresh']
        rfl
      · show (getDs (ensureAndStore s fut.result lastOp
          { owner := ow, hasChildDataSource := false, childDataSource := none,
            canceled := cn }).1 s.nextDs).map DataSourceRec.parentIsPipeline = some true
        simp only [ensureAndStore]
        rw [hch]
        show (lookupN (upd
          (s.dss ++ [(s.nextDs,
            { data := 0, operators := [], parentIsPipeline := true, deleted := false })])
          s.nextDs (fun r => { r with data := fut.result })) s.nextDs).map
            DataSourceRec.parentIsPipeline = some true
        rw [lookupN_upd, if_pos rfl, lookupN_append_fresh s.dss s.nextDs _ hfresh']
        rfl
      · show (ensureAndStore s fut.result lastOp
          { owner := ow, hasChildDataSource := false, childDataSource := none,
            canceled := cn }).2 =
          [Action.dataModified s.nextDs, Action.newChildDataSource lastOp s.nextDs]
        simp only [ensureAndStore]
        rw [hch]
        rfl
    | some c0 =>
      obtain ⟨dr, hdr⟩ := Option.isSome_iff_exists.mp (hwf c0 rfl)
      have hdr' : lookupN s.dss c0 = some dr := hdr
      have hch : childOf s lastOp = some c0 := by
        unfold childOf
        rw [ho]
        rfl
      refine ⟨c0, ?_, ?_, Or.inr ⟨rfl, ?_⟩⟩
      · show childOf (ensureAndStore s fut.result lastOp
          { owner := ow, hasChildDataSource := false, childDataSource := some c0,
            canceled := cn }).1 lastOp = some c0
        simp only [ensureAndStore]
        rw [hch]
        exact hch
      · show dsData (ensureAndStore s fut.result lastOp
          { owner := ow, hasChildDataSource := false, childDataSource := some c0,
            canceled := cn }).1 c0 = some fut.result
        simp only [ensureAndStore]
        rw [hch]
        show (lookupN (upd s.dss c0 (fun r => { r with data := fut.result })) c0).map
          DataSourceRec.data = some fut.result
        rw [lookupN_upd, if_pos rfl, hdr']
        rfl
      · show (ensureAndStore s fut.result lastOp
          { owner := ow, hasChildDataSource := false, childDataSource := some c0,
            canceled := cn }).2 = [Action.dataModified c0]
        simp only [ensureAndStore]
        rw [hch]
        rfl
  · intro hc
    obtain ⟨ow, hcds, cds, cn⟩ := lr
    simp only at hc
    subst hc
    exact ⟨rfl, rfl⟩
  · unfold pipelineBranchFinished
    rw [hf]
    dsimp only
    rw [hl]
    dsimp only
    rw [ho]
    dsimp only
    cases hch : childOf (ensureAndStore s fut.result lastOp lr).1 lastOp with
    | some c => rfl
    | none => rfl

theorem pipelineBranchFinished_success_spec_witness :
    ∃ s1 tr1,
      ensureAndStore sC1 futC1.result 1 (plainOp 0) = (s1, tr1) ∧
      ((plainOp 0).hasChildDataSource = false →
        ∃ c, childOf s1 1 = some c ∧ dsData s1 c = some futC1.result ∧
          (((plainOp 0).childDataSource = none ∧ getDs sC1 c = none ∧
              (getDs s1 c).map DataSourceRec.parentIsPipeline = some true ∧
              tr1 = [Action.dataModified c, Action.newChildDataSource 1 c]) ∨
           ((plainOp 0).childDataSource = some c ∧ tr1 = [Action.dataModified c]))) ∧
      ((plainOp 0).hasChildDataSource = true → s1 = sC1 ∧ tr1 = []) ∧
      (pipelineBranchFinished sC1 0 true).2 =
        tr1 ++ (match childOf s1 1 with
                | some c => Action.started :: (executePipelineBranch s1 c none).2
                | none => [Action.finished]) :=
  pipelineBranchFinished_success_spec sC1 0 futC1 1 (plainOp 0)
    (by decide) (by decide) (by decide) (by decide) (fun c h => nomatch h)

/-- C7: on an operatorRemoved event for ANY removed operator: when the
removed operator held an implicit (non-explicit) child, the child is
reattached to the node's new last operator with a synchronous
dataSourceMoved emission when operators remain, and, when none remain, the
orphaned child has all of its operators detached and is discarded; when the
removed operator held no implicit child the relocation block does nothing;
afterwards — in every one of these cases — when a handle is running, the
step-scoped cancellation from the removed operator is attempted and on its
failure the node's branch is re-run from scratch, while when nothing is
running the node's branch is re-run from scratch. -/
theorem operatorRemoved_spec (s : PipelineState) (op : OpId) (opRec : OperatorRec)
    (cancelOk : Bool)
    (ho : getOp s op = some opRec) :
    ∃ s1 t1, relocateOnRemove s op opRec = (s1, t1) ∧
      (∀ tds newOp, opRec.hasChildDataSource = false →
        opRec.childDataSource = some tds →
        (dsOperators s opRec.owner).getLast? = some newOp → newOp ≠ op →
        (getOp s newOp).isSome = true →
        childOf s1 op = none ∧ childOf s1 newOp = some tds ∧
        t1 = [Action.dataSourceMoved newOp tds]) ∧
      (∀ tds, opRec.hasChildDataSource = false →
        opRec.childDataSource = some tds →
        (dsOperators s opRec.owner).getLast? = none → (getDs s tds).isSome = true →
        dsOperators s1 tds = [] ∧
        (getDs s1 tds).map DataSourceRec.deleted = some true ∧ t1 = []) ∧
      ((opRec.hasChildDataSource = true ∨ opRec.childDataSource = none) →
        s1 = s ∧ t1 = []) ∧
      (∀ f, s1.mFuture = some f → futRunning s1 f = true →
        (cancelOk = true →
          operatorRemovedHandlers s op cancelOk = (s1, t1 ++ [Action.cancelFromOp f op])) ∧
        (cancelOk = false →
          (operatorRemovedHandlers s op cancelOk).2 =
            t1 ++ Action.cancelFromOp f op ::
              Action.started :: (executePipelineBranch s1 opRec.owner none).2)) ∧
      (∀ f, s1.mFuture = some f → futRunning s1 f = false →
        (operatorRemovedHandlers s op cancelOk).2 =
          t1 ++ Action.started :: (executePipelineBranch s1 opRec.owner none).2) ∧
      (s1.mFuture = none →
        (operatorRemovedHandlers s op cancelOk).2 =
          t1 ++ Action.started :: (executePipelineBranch s1 opRec.owner none).2) := by
  refine ⟨(relocateOnRemove s op opRec).1, (relocateOnRemove s op opRec).2, rfl,
    ?_, ?_, ?_, ?_, ?_, ?_⟩
  · intro tds newOp himp hc hlastN hneq hsome
    obtain ⟨ow, hcds, cds, cn⟩ := opRec
    simp only at himp hc hlastN ⊢
    subst himp
    subst hc
    simp only [relocateOnRemove]
    rw [hlastN]
    dsimp only
    refine ⟨?_, ?_, rfl⟩
    · rw [childOf_setOpChild_other _ newOp op (some tds) (Ne.symm hneq)]
      refine childOf_setOpChild_self _ op none ?_
      rw [ho]
      rfl
    · refine childOf_setOpChild_self _ newOp (some tds) ?_
      rw [getOp_setOpChild, if_neg hneq]
      exact hsome
  · intro tds himp hc hlastN hds
    obtain ⟨dr, hdr⟩ := Option.isSome_iff_exists.mp hds
    have hdr' : lookupN s.dss tds = some dr := hdr
    obtain ⟨ow, hcds, cds, cn⟩ := opRec
    simp only at himp hc hlastN ⊢
    subst himp
    subst hc
    simp only [relocateOnRemove]
    rw [hlastN]
    dsimp only
    refine ⟨?_, ?_, rfl⟩
    · show ((lookupN (upd (upd s.dss tds (fun r => { r with operators := ([] : List OpId) }))
        tds (fun r => { r with deleted := true })) tds).map
          DataSourceRec.operators).getD [] = []
      rw [lookupN_upd, if_pos rfl, lookupN_upd, if_pos rfl, hdr']
      rfl
    · show (lookupN (upd (upd s.dss tds (fun r => { r with operators := ([] : List OpId) }))
        tds (fun r => { r with deleted := true })) tds).map
          DataSourceRec.deleted = some true
      rw [lookupN_upd, if_pos rfl, lookupN_upd, if_pos rfl, hdr']
      rfl
  · intro hcase
    obtain ⟨ow, hcds, cds, cn⟩ := opRec
    simp only at hcase
    rcases hcase with h1 | h1
    · subst h1
      cases cds <;> exact ⟨rfl, rfl⟩
    · subst h1
      cases hcds <;> exact ⟨rfl, rfl⟩
  · intro f hmf hrun
    constructor
    · intro hco
      subst hco
      unfold operatorRemovedHandlers
      rw [ho]
      dsimp only
      rw [hmf]
      dsimp only
      rw [hrun]
      rfl
    · intro hco
      subst hco
      unfold operatorRemovedHandlers
      rw [ho]
      dsimp only
      rw [hmf]
      dsimp only
      rw [hrun]
      rfl
  · intro f hmf hrun
    unfold operatorRemovedHandlers
    rw [ho]
    dsimp only
    rw [hmf]
    dsimp only
    rw [hrun]
    rfl
  · intro hmf
    unfold operatorRemovedHandlers
    rw [ho]
    dsimp only
    rw [hmf]
    rfl

theorem operatorRemoved_spec_witness :
    childOf (operatorRemovedHandlers sC7 1 true).1 1 = none ∧
    childOf (operatorRemovedHandlers sC7 1 true).1 2 = some 1 ∧
    (operatorRemovedHandlers sC7 1 true).2 =
      [Action.dataSourceMoved 2 1] ++
        Action.started :: (executePipelineBranch (relocateOnRemove sC7 1
          { owner := 0, hasChildDataSource := false, childDataSource := some 1,
            canceled := false }).1 0 none).2 := by
  obtain ⟨s1, t1, h1, h2, h3, h4, h5, h6, h7⟩ :=
    operatorRemoved_spec sC7 1
      { owner := 0, hasChildDataSource := false, childDataSource := some 1,
        canceled := false } true (by decide)
  have hs1 : s1 = (relocateOnRemove sC7 1
      { owner := 0, hasChildDataSource := false, childDataSource := some 1,
        canceled := false }).1 := by rw [h1]
  have ht1 : t1 = (relocateOnRemove sC7 1
      { owner := 0, hasChildDataSource := false, childDataSource := some 1,
        canceled := false }).2 := by rw [h1]
  subst hs1
  subst ht1
  obtain ⟨ha, hb, hct⟩ :=
    h2 1 2 (by decide) (by decide) (by decide) (by decide) (by decide)
  refine ⟨ha, hb, ?_⟩
  rw [h7 (by decide), hct]

end Tomviz
